import Mathlib

/-!
Verification development for the MiniBus message bus (codehz/mini_bus_rust).

Shallow embedding of the repository's data model and operations:
* `src/utils.rs` / `src/packet.rs` — the binary wire codec (varuint, short
  text, reqid, Request, Response);
* `src/entity.rs` — the per-connection `ExternalEntity` key/value store with
  access tags, and the call/response bookkeeping (`pending_call`,
  `call_record`);
* `src/registry.rs` — the bidirectional name ↔ entity registry;
* `src/shared.rs` — the built-in `SharedStorage` bucket.

Rust `HashMap`/`BTreeMap` values are embedded as association lists with
`lookupAL` / `insertAL` / `eraseAL`; `insert` replaces the binding of an
existing key in place, `remove` drops every binding of the key (maps built by
`insertAL` never hold a key twice, so this coincides with removing the single
binding).  Byte strings are `List Nat` whose entries are the byte values;
machine-integer truncations are written with explicit `% 256` / `% 2 ^ 32`.
Fallible operations return `Except String _` mirroring `strerr`; broker
publications and `update_name` calls performed by an operation are returned
as explicit effect lists.
-/

/-- Association-list lookup: the value of the first binding of `key`
(`HashMap::get` / `BTreeMap::get`). -/
def lookupAL {α β : Type} [DecidableEq α] : List (α × β) → α → Option β
  | [], _ => none
  | (k, v) :: rest, key => if k = key then some v else lookupAL rest key

/-- Association-list insert: replace the binding of `key` in place if present,
append it otherwise (`HashMap::insert` / `BTreeMap::insert`). -/
def insertAL {α β : Type} [DecidableEq α] : List (α × β) → α → β → List (α × β)
  | [], key, val => [(key, val)]
  | (k, v) :: rest, key, val =>
      if k = key then (key, val) :: rest else (k, v) :: insertAL rest key val

/-- Association-list removal of every binding of `key`
(`HashMap::remove` / `BTreeMap::remove` on maps with unique keys). -/
def eraseAL {α β : Type} [DecidableEq α] : List (α × β) → α → List (α × β)
  | [], _ => []
  | (k, v) :: rest, key =>
      if k = key then eraseAL rest key else (k, v) :: eraseAL rest key

theorem lookupAL_insertAL {α β : Type} [DecidableEq α]
    (l : List (α × β)) (k : α) (v : β) (n : α) :
    lookupAL (insertAL l k v) n = if n = k then some v else lookupAL l n := by
  induction l with
  | nil => by_cases h : n = k <;> simp [insertAL, lookupAL, h, Ne.symm]
  | cons p rest ih =>
    obtain ⟨k', v'⟩ := p
    by_cases hk : k' = k
    · subst hk
      by_cases hn : n = k' <;> simp [insertAL, lookupAL, hn, Ne.symm]
    · by_cases hn : k' = n
      · subst hn
        have : ¬ k' = k := hk
        simp [insertAL, lookupAL, hk, this, Ne.symm hk]
      · simp [insertAL, lookupAL, hk, hn, ih]

theorem lookupAL_eraseAL {α β : Type} [DecidableEq α]
    (l : List (α × β)) (k : α) (n : α) :
    lookupAL (eraseAL l k) n = if n = k then none else lookupAL l n := by
  induction l with
  | nil => simp [eraseAL, lookupAL]
  | cons p rest ih =>
    obtain ⟨k', v'⟩ := p
    simp only [eraseAL, lookupAL]
    by_cases hk : k' = k
    · subst hk
      rw [if_pos rfl, ih]
      by_cases hn : n = k'
      · simp [hn]
      · have hn' : ¬ k' = n := fun h => hn h.symm
        simp [hn, hn']
    · rw [if_neg hk]
      by_cases hn : k' = n
      · have hn' : ¬ n = k := fun h => hk (hn.trans h)
        simp [lookupAL, hn, hn']
      · simp [lookupAL, hn, ih]

theorem eraseAL_of_lookupAL_none {α β : Type} [DecidableEq α]
    (l : List (α × β)) (k : α) (h : lookupAL l k = none) :
    eraseAL l k = l := by
  induction l with
  | nil => rfl
  | cons p rest ih =>
    obtain ⟨k', v'⟩ := p
    by_cases hk : k' = k
    · simp [lookupAL, hk] at h
    · simp [lookupAL, hk] at h
      simp [eraseAL, hk, ih h]

theorem lookupAL_mem {α β : Type} [DecidableEq α]
    (l : List (α × β)) (k : α) (v : β) (h : lookupAL l k = some v) :
    (k, v) ∈ l := by
  induction l with
  | nil => simp [lookupAL] at h
  | cons p rest ih =>
    obtain ⟨k', v'⟩ := p
    by_cases hk : k' = k
    · subst hk
      simp [lookupAL] at h
      simp [h]
    · simp [lookupAL, hk] at h
      exact List.mem_cons_of_mem _ (ih h)

/-- Keys of an association list are pairwise distinct (true of every map the
program builds, and of every state our operations produce). -/
def keysNodup {α β : Type} [DecidableEq α] (l : List (α × β)) : Prop :=
  (l.map Prod.fst).Nodup

theorem mem_lookupAL_of_nodup {α β : Type} [DecidableEq α]
    (l : List (α × β)) (k : α) (v : β) (hnd : keysNodup l) (h : (k, v) ∈ l) :
    lookupAL l k = some v := by
  induction l with
  | nil => simp at h
  | cons p rest ih =>
    obtain ⟨k', v'⟩ := p
    have hnd' := List.nodup_cons.mp hnd
    rcases List.mem_cons.mp h with h1 | h2
    · cases h1
      simp [lookupAL]
    · have hk : ¬ k' = k := by
        intro he
        apply hnd'.1
        rw [he]
        exact List.mem_map.mpr ⟨(k, v), h2, rfl⟩
      simp [lookupAL, hk, ih hnd'.2 h2]

theorem lookupAL_none_iff_not_mem_keys {α β : Type} [DecidableEq α]
    (l : List (α × β)) (k : α) :
    lookupAL l k = none ↔ k ∉ l.map Prod.fst := by
  induction l with
  | nil => simp [lookupAL]
  | cons p rest ih =>
    obtain ⟨k', v'⟩ := p
    by_cases hk : k' = k
    · subst hk
      simp [lookupAL]
    · have hk' : ¬ k = k' := fun h => hk h.symm
      simp [lookupAL, hk, ih, hk']

theorem map_fst_insertAL_of_mem {α β : Type} [DecidableEq α]
    (l : List (α × β)) (k : α) (v : β) (h : k ∈ l.map Prod.fst) :
    (insertAL l k v).map Prod.fst = l.map Prod.fst := by
  induction l with
  | nil => simp at h
  | cons p rest ih =>
    obtain ⟨k', v'⟩ := p
    by_cases hk : k' = k
    · simp [insertAL, hk]
    · have h' : k ∈ rest.map Prod.fst := by
        simp at h
        rcases h with h | h
        · exact absurd h.symm hk
        · simpa using h
      simp [insertAL, hk, ih h']

theorem map_fst_insertAL_of_not_mem {α β : Type} [DecidableEq α]
    (l : List (α × β)) (k : α) (v : β) (h : k ∉ l.map Prod.fst) :
    (insertAL l k v).map Prod.fst = l.map Prod.fst ++ [k] := by
  induction l with
  | nil => simp [insertAL]
  | cons p rest ih =>
    obtain ⟨k', v'⟩ := p
    simp at h
    have hk : ¬ k' = k := fun he => h.1 he.symm
    have h2 : k ∉ rest.map Prod.fst := by simpa using h.2
    simp [insertAL, hk, ih h2]

theorem keysNodup_insertAL {α β : Type} [DecidableEq α]
    (l : List (α × β)) (k : α) (v : β) (h : keysNodup l) :
    keysNodup (insertAL l k v) := by
  unfold keysNodup at *
  by_cases hm : k ∈ l.map Prod.fst
  · rw [map_fst_insertAL_of_mem l k v hm]
    exact h
  · rw [map_fst_insertAL_of_not_mem l k v hm]
    refine List.Nodup.append h (List.nodup_singleton k) ?_
    intro a ha hb
    rw [List.mem_singleton.mp hb] at ha
    exact hm ha

theorem eraseAL_sublist {α β : Type} [DecidableEq α]
    (l : List (α × β)) (k : α) : (eraseAL l k).Sublist l := by
  induction l with
  | nil => simp [eraseAL]
  | cons p rest ih =>
    obtain ⟨k', v'⟩ := p
    by_cases hk : k' = k
    · simp only [eraseAL, if_pos hk]
      exact ih.cons _
    · simp only [eraseAL, if_neg hk]
      exact ih.cons₂ _

theorem keysNodup_eraseAL {α β : Type} [DecidableEq α]
    (l : List (α × β)) (k : α) (h : keysNodup l) :
    keysNodup (eraseAL l k) := by
  unfold keysNodup at *
  exact h.sublist ((eraseAL_sublist l k).map Prod.fst)

/-! ## Wire codec (`src/utils.rs`, `src/packet.rs`)

Streams are `List Nat` of byte values; an encoder produces the bytes it
writes, a decoder consumes a stream and returns the decoded value together
with the remaining stream (`none` models a short read or a `"not match"`
decode error). -/

/-- `encode_varuint` (utils.rs): base-128 little-endian groups; each byte
except the last has its high bit set (`(val & 0x7f) | 0x80`), then
`val >>= 7`. -/
def encode_varuint (val : Nat) : List Nat :=
  if val < 128 then [val]
  else (val % 128 + 128) :: encode_varuint (val / 128)
termination_by val
decreasing_by exact Nat.div_lt_self (by omega) (by omega)

/-- `decode_varuint` (utils.rs): read one byte; if below 128 it is the value,
otherwise keep its low 7 bits (`ret & 0x7f`) and add the recursively decoded
remainder shifted left by 7. -/
def decode_varuint : List Nat → Option (Nat × List Nat)
  | [] => none
  | b :: rest =>
    if b < 128 then some (b, rest)
    else
      match decode_varuint rest with
      | some (v, rest') => some (b % 128 + v * 128, rest')
      | none => none

/-- `encode_reqid` (utils.rs): the `u32` as four little-endian bytes. -/
def encode_reqid (id : Nat) : List Nat :=
  [id % 256, id / 256 % 256, id / 65536 % 256, id / 16777216 % 256]

/-- `decode_reqid` (utils.rs): four little-endian bytes back to the `u32`. -/
def decode_reqid : List Nat → Option (Nat × List Nat)
  | b0 :: b1 :: b2 :: b3 :: rest =>
      some (b0 + 256 * (b1 + 256 * (b2 + 256 * b3)), rest)
  | _ => none

/-- `encode_short_text` (utils.rs): one length byte (`str.len() as u8`)
followed by the content bytes. -/
def encode_short_text (s : List Nat) : List Nat :=
  (s.length % 256) :: s

/-- `decode_short_text` (utils.rs): read the length byte, then exactly that
many content bytes (`read_exact` fails on a short stream). -/
def decode_short_text : List Nat → Option (List Nat × List Nat)
  | [] => none
  | len :: rest =>
      if len ≤ rest.length then some (rest.take len, rest.drop len) else none

/-- `encode_binary` (utils.rs): varuint length then the raw bytes. -/
def encode_binary (s : List Nat) : List Nat :=
  encode_varuint s.length ++ s

/-- `decode_binary` (utils.rs): varuint length, then exactly that many bytes. -/
def decode_binary (l : List Nat) : Option (List Nat × List Nat) :=
  match decode_varuint l with
  | some (len, rest) =>
      if len ≤ rest.length then some (rest.take len, rest.drop len) else none
  | none => none

/-- `Request` (packet.rs). -/
structure Request where
  reqid : Nat
  command : List Nat
  payload : List Nat
deriving DecidableEq

/-- `Encoder<Request>` (packet.rs): reqid, command short text, payload binary. -/
def encodeRequest (r : Request) : List Nat :=
  encode_reqid r.reqid ++ encode_short_text r.command ++ encode_binary r.payload

/-- `Decoder<Request>` (packet.rs). -/
def decodeRequest (l : List Nat) : Option (Request × List Nat) :=
  match decode_reqid l with
  | none => none
  | some (reqid, rest) =>
    match decode_short_text rest with
    | none => none
    | some (command, rest') =>
      match decode_binary rest' with
      | none => none
      | some (payload, rest'') => some (⟨reqid, command, payload⟩, rest'')

/-- `ResponseKind` (packet.rs). -/
inductive ResponseKind where
  | RESP
  | NEXT
  | CALL
deriving DecidableEq

/-- `Encoder<ResponseKind>` (packet.rs): the four ASCII bytes of
`"RESP"` / `"NEXT"` / `"CALL"`. -/
def encodeKind : ResponseKind → List Nat
  | .RESP => [82, 69, 83, 80]
  | .NEXT => [78, 69, 88, 84]
  | .CALL => [67, 65, 76, 76]

/-- `Decoder<ResponseKind>` (packet.rs): read four bytes and match them;
anything else is the `"not match"` error. -/
def decodeKind : List Nat → Option (ResponseKind × List Nat)
  | b0 :: b1 :: b2 :: b3 :: rest =>
    if [b0, b1, b2, b3] = [82, 69, 83, 80] then some (.RESP, rest)
    else if [b0, b1, b2, b3] = [78, 69, 88, 84] then some (.NEXT, rest)
    else if [b0, b1, b2, b3] = [67, 65, 76, 76] then some (.CALL, rest)
    else none
  | _ => none

/-- `ResponsePayload` (packet.rs). -/
inductive ResponsePayload where
  | Success
  | SuccessWithData (data : List Nat)
  | Failed (data : List Nat)
deriving DecidableEq

/-- `Encoder<ResponsePayload>` (packet.rs): tag byte `0`, `1 · binary`, or
`255 · binary`. -/
def encodePayload : ResponsePayload → List Nat
  | .Success => [0]
  | .SuccessWithData d => 1 :: encode_binary d
  | .Failed d => 255 :: encode_binary d

/-- `Decoder<ResponsePayload>` (packet.rs): tag byte then optional binary;
an unknown tag is the `"not match"` error. -/
def decodePayload : List Nat → Option (ResponsePayload × List Nat)
  | [] => none
  | t :: rest =>
    if t = 0 then some (.Success, rest)
    else if t = 1 then
      match decode_binary rest with
      | some (d, rest') => some (.SuccessWithData d, rest')
      | none => none
    else if t = 255 then
      match decode_binary rest with
      | some (d, rest') => some (.Failed d, rest')
      | none => none
    else none

/-- `Response` (packet.rs). -/
structure Response where
  reqid : Nat
  kind : ResponseKind
  payload : ResponsePayload
deriving DecidableEq

/-- `Response::new_resp` (packet.rs). -/
def Response.new_resp (reqid : Nat) (payload : ResponsePayload) : Response :=
  ⟨reqid, .RESP, payload⟩

/-- `Response::new_next` (packet.rs). -/
def Response.new_next (reqid : Nat) (payload : ResponsePayload) : Response :=
  ⟨reqid, .NEXT, payload⟩

/-- `Response::new_call` (packet.rs). -/
def Response.new_call (reqid : Nat) (payload : ResponsePayload) : Response :=
  ⟨reqid, .CALL, payload⟩

/-- `Encoder<Response>` (packet.rs): reqid, kind, payload. -/
def encodeResponse (r : Response) : List Nat :=
  encode_reqid r.reqid ++ encodeKind r.kind ++ encodePayload r.payload

/-- `Decoder<Response>` (packet.rs). -/
def decodeResponse (l : List Nat) : Option (Response × List Nat) :=
  match decode_reqid l with
  | none => none
  | some (reqid, rest) =>
    match decodeKind rest with
    | none => none
    | some (kind, rest') =>
      match decodePayload rest' with
      | none => none
      | some (payload, rest'') => some (⟨reqid, kind, payload⟩, rest'')

/-- A well-formed `Request`: the reqid fits in a `u32`, the command is a
`ShortText` (at most 255 content bytes, each a byte value), and the payload
is a byte string. -/
def RequestWF (r : Request) : Prop :=
  r.reqid < 2 ^ 32 ∧ r.command.length ≤ 255 ∧
    (∀ b ∈ r.command, b < 256) ∧ (∀ b ∈ r.payload, b < 256)

/-- The data bytes carried by a `ResponsePayload`. -/
def payloadBytes : ResponsePayload → List Nat
  | .Success => []
  | .SuccessWithData d => d
  | .Failed d => d

/-- A well-formed `Response`: the reqid fits in a `u32` and any carried data
is a byte string. -/
def ResponseWF (r : Response) : Prop :=
  r.reqid < 2 ^ 32 ∧ ∀ b ∈ payloadBytes r.payload, b < 256

theorem decode_encode_varuint (n : Nat) (rest : List Nat) :
    decode_varuint (encode_varuint n ++ rest) = some (n, rest) := by
  induction n using Nat.strong_induction_on with
  | _ n ih =>
    by_cases h : n < 128
    · rw [encode_varuint, if_pos h]
      simp [decode_varuint, h]
    · rw [encode_varuint, if_neg h]
      have hlt : n / 128 < n := Nat.div_lt_self (by omega) (by omega)
      have hbig : ¬ n % 128 + 128 < 128 := by omega
      have hstep : decode_varuint
            ((n % 128 + 128) :: (encode_varuint (n / 128) ++ rest))
          = match decode_varuint (encode_varuint (n / 128) ++ rest) with
            | some (v, rest') => some ((n % 128 + 128) % 128 + v * 128, rest')
            | none => none := by
        simp [decode_varuint, hbig]
      rw [List.cons_append, hstep, ih (n / 128) hlt]
      simp
      omega

theorem decode_encode_reqid (id : Nat) (rest : List Nat) (h : id < 2 ^ 32) :
    decode_reqid (encode_reqid id ++ rest) = some (id, rest) := by
  simp only [encode_reqid, List.cons_append, List.nil_append, decode_reqid]
  congr 2
  omega

theorem decode_encode_short_text (s : List Nat) (rest : List Nat)
    (h : s.length ≤ 255) :
    decode_short_text (encode_short_text s ++ rest) = some (s, rest) := by
  have hmod : s.length % 256 = s.length := Nat.mod_eq_of_lt (by omega)
  simp only [encode_short_text, List.cons_append, decode_short_text, hmod]
  rw [if_pos (by simp)]
  simp

theorem decode_encode_binary (s : List Nat) (rest : List Nat) :
    decode_binary (encode_binary s ++ rest) = some (s, rest) := by
  simp only [encode_binary, List.append_assoc, decode_binary,
    decode_encode_varuint]
  rw [if_pos (by simp)]
  simp

theorem decode_encode_kind (k : ResponseKind) (rest : List Nat) :
    decodeKind (encodeKind k ++ rest) = some (k, rest) := by
  cases k <;> simp [encodeKind, decodeKind]

theorem decode_encode_payload (p : ResponsePayload) (rest : List Nat) :
    decodePayload (encodePayload p ++ rest) = some (p, rest) := by
  cases p <;> simp [encodePayload, decodePayload, decode_encode_binary]

theorem decode_encode_request (r : Request) (rest : List Nat)
    (h1 : r.reqid < 2 ^ 32) (h2 : r.command.length ≤ 255) :
    decodeRequest (encodeRequest r ++ rest) = some (r, rest) := by
  simp only [encodeRequest, decodeRequest, List.append_assoc,
    decode_encode_reqid _ _ h1, decode_encode_short_text _ _ h2,
    decode_encode_binary]

theorem decode_encode_response (r : Response) (rest : List Nat)
    (h1 : r.reqid < 2 ^ 32) :
    decodeResponse (encodeResponse r ++ rest) = some (r, rest) := by
  simp only [encodeResponse, decodeResponse, List.append_assoc,
    decode_encode_reqid _ _ h1, decode_encode_kind, decode_encode_payload]

/-- Claim C6: for every well-formed `Request` (any `u32` reqid, any
`ShortText` command, any byte payload) and every well-formed `Response`
(reqid, kind in RESP/NEXT/CALL, payload Success / SuccessWithData / Failed),
decoding the encoding yields the original value, and the varuint codec
round-trips on every natural number. -/
theorem codec_roundtrip :
    (∀ r : Request, RequestWF r →
        decodeRequest (encodeRequest r) = some (r, [])) ∧
    (∀ r : Response, ResponseWF r →
        decodeResponse (encodeResponse r) = some (r, [])) ∧
    (∀ n : Nat, decode_varuint (encode_varuint n) = some (n, [])) := by
  refine ⟨fun r h => ?_, fun r h => ?_, fun n => ?_⟩
  · have := decode_encode_request r [] h.1 h.2.1
    simpa using this
  · have := decode_encode_response r [] h.1
    simpa using this
  · have := decode_encode_varuint n []
    simpa using this

/-- Witness for C6: the round trip evaluated on a concrete request, a
concrete response, and the varuint corner values 0, 1, 127, 128, 16383,
16384 and 2^32 − 1. -/
theorem codec_roundtrip_witness :
    decodeRequest (encodeRequest ⟨7, [80, 73, 78, 71], [104, 105]⟩)
        = some (⟨7, [80, 73, 78, 71], [104, 105]⟩, []) ∧
    decodeResponse
        (encodeResponse ⟨7, ResponseKind.RESP,
          ResponsePayload.SuccessWithData [104, 105]⟩)
        = some (⟨7, ResponseKind.RESP,
            ResponsePayload.SuccessWithData [104, 105]⟩, []) ∧
    decode_varuint (encode_varuint 0) = some (0, []) ∧
    decode_varuint (encode_varuint 1) = some (1, []) ∧
    decode_varuint (encode_varuint 127) = some (127, []) ∧
    decode_varuint (encode_varuint 128) = some (128, []) ∧
    decode_varuint (encode_varuint 16383) = some (16383, []) ∧
    decode_varuint (encode_varuint 16384) = some (16384, []) ∧
    decode_varuint (encode_varuint 4294967295) = some (4294967295, []) :=
  ⟨codec_roundtrip.1 _ (by constructor <;> simp [RequestWF]),
   codec_roundtrip.2.1 _ (by constructor <;> simp [payloadBytes]),
   codec_roundtrip.2.2 0, codec_roundtrip.2.2 1, codec_roundtrip.2.2 127,
   codec_roundtrip.2.2 128, codec_roundtrip.2.2 16383,
   codec_roundtrip.2.2 16384, codec_roundtrip.2.2 4294967295⟩

/-! ## External entity key/value store (`src/entity.rs`)

An `ExternalEntity`'s kv-related state is its optional registered name and
its `kvstore : HashMap<ShortText, ValueWithAccess>`.  Operations that
publish on the event broker (`get_event_broker().send(...)`) return the list
of `(EventKey, payload)` publications they perform, in order; `none` payload
encodes deletion. -/

/-- `AccessTag` (entity.rs). -/
inductive AccessTag where
  | Private
  | Protected
  | Public
deriving DecidableEq

/-- `ValueWithAccess(Option<Vec<u8>>, AccessTag)` (entity.rs). -/
structure ValueWithAccess where
  value : Option (List Nat)
  access : AccessTag
deriving DecidableEq

/-- `EventKey(owner, key)` (broker.rs). -/
structure EventKey where
  owner : List Nat
  key : List Nat
deriving DecidableEq

/-- Broker publications: ordered `(topic, payload)` pairs, `none` = deletion. -/
abbrev Published := List (EventKey × Option (List Nat))

/-- The kv-related state of an `ExternalEntity` (entity.rs): `name` and
`kvstore`. -/
structure EntityState where
  name : Option (List Nat)
  kvstore : List (List Nat × ValueWithAccess)
deriving DecidableEq

deriving instance DecidableEq for Except

/-- Result of a fallible kv operation: `strerr` outcome, the state after the
operation, and the broker publications it performed. -/
structure KvResult (α : Type) where
  result : Except String α
  state : EntityState
  published : Published
deriving DecidableEq

/-- `ExternalEntity::get` (entity.rs lines 158–169): Private → `"not
allowed"`; any other present tag → the stored value; absent → `"not
found"`. -/
def ExternalEntity.get (st : EntityState) (key : List Nat) :
    Except String (Option (List Nat)) :=
  match lookupAL st.kvstore key with
  | some va =>
    match va.access with
    | .Private => .error "not allowed"
    | _ => .ok va.value
  | none => .error "not found"

/-- `ExternalEntity::set` (entity.rs lines 170–190): only a Public row may be
written; if the entity has a name the new value is published on the event
broker first; other tags → `"not allowned"` (sic); absent → `"not found"`. -/
def ExternalEntity.set (st : EntityState) (key : List Nat) (val : List Nat) :
    KvResult Unit :=
  match lookupAL st.kvstore key with
  | some va =>
    match va.access with
    | .Public =>
      { result := .ok ()
        state := { st with
          kvstore := insertAL st.kvstore key ⟨some val, .Public⟩ }
        published :=
          match st.name with
          | some n => [(⟨n, key⟩, some val)]
          | none => [] }
    | _ => { result := .error "not allowned", state := st, published := [] }
  | none => { result := .error "not found", state := st, published := [] }

/-- `ExternalEntity::del` (entity.rs lines 191–206): only a Public row may be
deleted; publishes `none` if the entity has a name, then clears the stored
value (`value.take()`) leaving the row and its tag in place. -/
def ExternalEntity.del (st : EntityState) (key : List Nat) : KvResult Unit :=
  match lookupAL st.kvstore key with
  | some va =>
    match va.access with
    | .Public =>
      { result := .ok ()
        state := { st with
          kvstore := insertAL st.kvstore key ⟨none, .Public⟩ }
        published :=
          match st.name with
          | some n => [(⟨n, key⟩, none)]
          | none => [] }
    | _ => { result := .error "not allowned", state := st, published := [] }
  | none => { result := .error "not found", state := st, published := [] }

/-- `ExternalEntity::keys` (entity.rs lines 208–215): every present key with
its tag. -/
def ExternalEntity.keys (st : EntityState) : List (List Nat × AccessTag) :=
  st.kvstore.map (fun p => (p.1, p.2.access))

/-- `ExternalEntity::set_acl` (entity.rs lines 258–269): update the tag of an
existing row, or insert an empty-value reservation with the tag. -/
def ExternalEntity.set_acl (st : EntityState) (key : List Nat)
    (acl : AccessTag) : EntityState :=
  match lookupAL st.kvstore key with
  | some va => { st with kvstore := insertAL st.kvstore key ⟨va.value, acl⟩ }
  | none => { st with kvstore := insertAL st.kvstore key ⟨none, acl⟩ }

/-- `ExternalEntity::get_private` (entity.rs lines 271–277): the stored value
of a present row, ignoring the tag. -/
def ExternalEntity.get_private (st : EntityState) (key : List Nat) :
    Option (List Nat) :=
  match lookupAL st.kvstore key with
  | some va => va.value
  | none => none

/-- `ExternalEntity::set_private` (entity.rs lines 279–290): publish the new
value if the entity has a name, then unconditionally store it as Public. -/
def ExternalEntity.set_private (st : EntityState) (key : List Nat)
    (value : List Nat) : EntityState × Published :=
  ({ st with kvstore := insertAL st.kvstore key ⟨some value, .Public⟩ },
   match st.name with
   | some n => [(⟨n, key⟩, some value)]
   | none => [])

/-- `ExternalEntity::del_private` (entity.rs lines 292–300): publish the
deletion if the entity has a name, then remove the row entirely. -/
def ExternalEntity.del_private (st : EntityState) (key : List Nat) :
    EntityState × Published :=
  ({ st with kvstore := eraseAL st.kvstore key },
   match st.name with
   | some n => [(⟨n, key⟩, none)]
   | none => [])

/-! ## Registry (`src/registry.rs`)

Entity identity is `ptr::eq` on the trait objects; we embed it as a natural
number id.  Both views of the `BidiMap` hold weak references; the claims
concern sequences of `set`/`del` on live entities, so upgrading always
succeeds here.  `update_name` calls on the sender are reported in
`nameUpdates`. -/

/-- Pointer identity of an entity (`Arc<dyn Entity>` address). -/
abbrev EntityId := Nat

/-- `BidiMap` (registry.rs): `forward : ShortText → weak(Entity)` and
`reverse : weak(Entity) → ShortText`. -/
structure RegState where
  forward : List (List Nat × EntityId)
  reverse : List (EntityId × List Nat)
deriving DecidableEq

/-- Result of a registry mutation. -/
structure RegResult where
  result : Except String Unit
  state : RegState
  published : Published
  nameUpdates : List (EntityId × Option (List Nat))
deriving DecidableEq

/-- Bytes of `b"registry"`. -/
def registryName : List Nat := [114, 101, 103, 105, 115, 116, 114, 121]

/-- Bytes of `b"shared"`. -/
def sharedName : List Nat := [115, 104, 97, 114, 101, 100]

/-- Identity of the `Registry` singleton itself. -/
def registryId : EntityId := 0

/-- Identity of the `SharedStorage` singleton submitted through
`inventory` (shared.rs). -/
def sharedId : EntityId := 1

/-- `Registry::init` (registry.rs lines 36–50): insert `"registry"` → the
registry itself, then every `StaticRegistryItem` — here `"shared"` →
`SharedStorage` (shared.rs lines 13–17).  Only the forward view is
populated. -/
def Registry.init : RegState :=
  { forward := insertAL (insertAL [] registryName registryId)
      sharedName sharedId
    reverse := [] }

/-- `Registry::set` (registry.rs lines 74–94): `"duplicated"` if the name is
already bound, else `"too many names"` if the sender already has a reverse
entry, else install both entries, call `sender.update_name(Some(name))` and
publish `EventKey("registry", name)` with the supplied value. -/
def Registry.set (st : RegState) (sender : EntityId) (key : List Nat)
    (val : List Nat) : RegResult :=
  if (lookupAL st.forward key).isSome then
    { result := .error "duplicated", state := st, published := [],
      nameUpdates := [] }
  else if (lookupAL st.reverse sender).isSome then
    { result := .error "too many names", state := st, published := [],
      nameUpdates := [] }
  else
    { result := .ok ()
      state := { forward := insertAL st.forward key sender
                 reverse := insertAL st.reverse sender key }
      published := [(⟨registryName, key⟩, some val)]
      nameUpdates := [(sender, some key)] }

/-- `Registry::del` (registry.rs lines 95–114): permitted only when the
forward entry for the name is pointer-identical to the sender, in which case
it publishes `EventKey("registry", name)` with `none` and removes both
entries; `"not allowned"` (sic) when bound to a different entity, `"not
found"` when unbound. -/
def Registry.del (st : RegState) (sender : EntityId) (key : List Nat) :
    RegResult :=
  match lookupAL st.forward key with
  | some target =>
    if target = sender then
      { result := .ok ()
        state := { forward := eraseAL st.forward key
                   reverse := eraseAL st.reverse sender }
        published := [(⟨registryName, key⟩, none)]
        nameUpdates := [] }
    else
      { result := .error "not allowned", state := st, published := [],
        nameUpdates := [] }
  | none =>
      { result := .error "not found", state := st, published := [],
        nameUpdates := [] }

/-- Registry states reachable from `Registry::init` by `set`/`del`.  Senders
are the per-connection `ExternalEntity` handles the gateway passes
(main.rs), never the preinstalled `Registry`/`SharedStorage` singletons, so
their identities differ from `registryId` and `sharedId`. -/
inductive RegReachable : RegState → Prop where
  | init : RegReachable Registry.init
  | set (st : RegState) (sender : EntityId) (key val : List Nat)
      (h : RegReachable st) (h1 : sender ≠ registryId) (h2 : sender ≠ sharedId) :
      RegReachable (Registry.set st sender key val).state
  | del (st : RegState) (sender : EntityId) (key : List Nat)
      (h : RegReachable st) (h1 : sender ≠ registryId) (h2 : sender ≠ sharedId) :
      RegReachable (Registry.del st sender key).state

/-! ## Shared bucket (`src/shared.rs`) -/

/-- `SharedStorage` state: `data : HashMap<ShortText, Vec<u8>>`. -/
structure SharedState where
  data : List (List Nat × List Nat)
deriving DecidableEq

/-- How `SharedStorage::del` finishes: a normal `Ok(())` return, or hitting
the `todo!()` panic. -/
inductive DelOutcome where
  | normal
  | todoReached
deriving DecidableEq

/-- Result of `SharedStorage::del`. -/
structure SharedDelResult where
  state : SharedState
  published : Published
  outcome : DelOutcome
deriving DecidableEq

/-- `SharedStorage::del` (shared.rs lines 48–55): publish
`EventKey("shared", key)` with `none`, remove the key, then hit `todo!()` —
the function never returns `Ok`. -/
def SharedStorage.del (st : SharedState) (key : List Nat) : SharedDelResult :=
  { state := ⟨eraseAL st.data key⟩
    published := [(⟨sharedName, key⟩, none)]
    outcome := .todoReached }

/-! ## Call/response routing (`src/entity.rs`, `src/main.rs`)

Two live entities over their own connections: A (the requester, whose
`pending_call` maps responder ids to its client's request ids) and B (the
responder, whose `call_record` maps responder ids to a weak reference to
A).  In this world the recorded weak reference is embedded as a `Bool`
telling whether the upgrade succeeds; frames written to each connection
accumulate in `aout` / `bout` (writes to the open stream succeed). -/

structure CallWorld where
  apending : List (Nat × Nat)
  aout : List Response
  brecord : List (Nat × Bool)
  bout : List Response
deriving DecidableEq

/-- `EntityReceiver::assign_call_ids` on A (entity.rs lines 95–98): record
`resid → reqid` in `pending_call`. -/
def ExternalEntity.assign_call_ids (w : CallWorld) (reqid resid : Nat) :
    CallWorld :=
  { w with apending := insertAL w.apending resid reqid }

/-- `EntityReceiver::call_resp` on A (entity.rs lines 103–108): remove the
`pending_call` entry for `resid`; if one was present, write a `RESP` frame
with the recorded request id and the payload. -/
def ExternalEntity.call_resp (w : CallWorld) (resid : Nat)
    (val : ResponsePayload) : CallWorld :=
  match lookupAL w.apending resid with
  | some reqid =>
      { w with apending := eraseAL w.apending resid
               aout := w.aout ++ [Response.new_resp reqid val] }
  | none => w

/-- `ExternalEntity::call` on B with sender A (entity.rs lines 217–243):
`rid` stands for `call_record.gen_random_key()` (utils.rs lines 144–161), a
random u32 resampled until it is not a key of `call_record` — theorems take
that freshness as a hypothesis.  Builds `short_text(key) · val`, tells A
`assign_call_ids(reqid, rid)`, records the weak sender, and writes a `CALL`
frame with reqid `rid` downstream. -/
def ExternalEntity.call (w : CallWorld) (reqid : Nat) (key : List Nat)
    (val : List Nat) (rid : Nat) : CallWorld :=
  let buf := encode_short_text key ++ val
  let w1 := ExternalEntity.assign_call_ids w reqid rid
  { w1 with
    brecord := insertAL w1.brecord rid true
    bout := w1.bout ++
      [Response.new_call rid (ResponsePayload.SuccessWithData buf)] }

/-- `ExternalEntity::recv_call_resp` on B (entity.rs lines 302–309), reached
from the `RESPONSE`/`EXCEPTION` commands (main.rs lines 254–269): remove the
`call_record` entry; if present and the weak reference upgrades, forward via
A's `call_resp`. -/
def ExternalEntity.recv_call_resp (w : CallWorld) (reqid : Nat)
    (payload : ResponsePayload) : CallWorld :=
  match lookupAL w.brecord reqid with
  | some alive =>
      let w' := { w with brecord := eraseAL w.brecord reqid }
      if alive then ExternalEntity.call_resp w' reqid payload else w'
  | none => w

theorem mem_eraseAL_fst_ne {α β : Type} [DecidableEq α]
    (l : List (α × β)) (k : α) (p : α × β) (hp : p ∈ eraseAL l k) :
    p.1 ≠ k := by
  induction l with
  | nil => simp [eraseAL] at hp
  | cons q rest ih =>
    obtain ⟨k', v'⟩ := q
    by_cases hk : k' = k
    · rw [eraseAL, if_pos hk] at hp
      exact ih hp
    · rw [eraseAL, if_neg hk] at hp
      rcases List.mem_cons.mp hp with h1 | h2
      · rw [h1]
        exact hk
      · exact ih h2

/-- Claim C1 (amended — the code's `set`/`del` ACL error is the misspelled
`"not allowned"`, not `"not allowed"`): for every key present in the
kvstore, a remote `get` on a Private-tagged key fails with `"not allowed"`;
a remote `set` or `del` on a Protected- or Private-tagged key fails with
`"not allowned"` (sic); and `set_private` always succeeds locally, storing
the value as Public regardless of any existing tag on the key. -/
theorem access_enforcement :
    (∀ st key va, lookupAL st.kvstore key = some va →
        va.access = AccessTag.Private →
        ExternalEntity.get st key = .error "not allowed") ∧
    (∀ st key va val, lookupAL st.kvstore key = some va →
        va.access ≠ AccessTag.Public →
        (ExternalEntity.set st key val).result = .error "not allowned" ∧
        (ExternalEntity.del st key).result = .error "not allowned") ∧
    (∀ st key value,
        lookupAL (ExternalEntity.set_private st key value).1.kvstore key
          = some ⟨some value, AccessTag.Public⟩) := by
  refine ⟨?_, ?_, ?_⟩
  · intro st key va h hp
    simp [ExternalEntity.get, h, hp]
  · intro st key va val h hp
    cases hacc : va.access with
    | Public => exact absurd hacc hp
    | Private =>
      constructor
      · simp [ExternalEntity.set, h, hacc]
      · simp [ExternalEntity.del, h, hacc]
    | Protected =>
      constructor
      · simp [ExternalEntity.set, h, hacc]
      · simp [ExternalEntity.del, h, hacc]
  · intro st key value
    simp [ExternalEntity.set_private, lookupAL_insertAL]

/-- Witness for C1 on a concrete kvstore holding a Private key `[112]` and a
Protected key `[113]`. -/
theorem access_enforcement_witness :
    ExternalEntity.get ⟨none, [([112], ⟨some [1], AccessTag.Private⟩),
        ([113], ⟨some [2], AccessTag.Protected⟩)]⟩ [112]
      = .error "not allowed" ∧
    (ExternalEntity.set ⟨none, [([112], ⟨some [1], AccessTag.Private⟩),
        ([113], ⟨some [2], AccessTag.Protected⟩)]⟩ [113] [9]).result
      = .error "not allowned" ∧
    (ExternalEntity.del ⟨none, [([112], ⟨some [1], AccessTag.Private⟩),
        ([113], ⟨some [2], AccessTag.Protected⟩)]⟩ [113]).result
      = .error "not allowned" ∧
    lookupAL (ExternalEntity.set_private ⟨none,
        [([112], ⟨some [1], AccessTag.Private⟩),
         ([113], ⟨some [2], AccessTag.Protected⟩)]⟩ [112] [7]).1.kvstore [112]
      = some ⟨some [7], AccessTag.Public⟩ :=
  ⟨access_enforcement.1 _ _ ⟨some [1], AccessTag.Private⟩ (by decide) rfl,
   (access_enforcement.2.1 _ _ ⟨some [2], AccessTag.Protected⟩ [9]
      (by decide) (by decide)).1,
   (access_enforcement.2.1 _ _ ⟨some [2], AccessTag.Protected⟩ [9]
      (by decide) (by decide)).2,
   access_enforcement.2.2 _ [112] [7]⟩

/-- Counterexample to C1 as stated: a remote `set` on a Protected-tagged key
does fail, but with the source's misspelled `"not allowned"`, not with
`"not allowed"`. -/
theorem access_enforcement_counterexample :
    (ExternalEntity.set ⟨none, [([113], ⟨some [2], AccessTag.Protected⟩)]⟩
        [113] [9]).result ≠ Except.error "not allowed" ∧
    (ExternalEntity.set ⟨none, [([113], ⟨some [2], AccessTag.Protected⟩)]⟩
        [113] [9]).result = Except.error "not allowned" := by
  constructor
  · decide
  · decide

/-- Claim C9: for every key absent from the kvstore, a remote `set` or `del`
fails with `"not found"` leaving the state unchanged and publishing nothing;
remote `set`/`del` never create the key, while the local `set_private` and
`set_acl` do. -/
theorem missing_key_never_created (st : EntityState) (key val : List Nat)
    (h : lookupAL st.kvstore key = none) :
    (ExternalEntity.set st key val).result = .error "not found" ∧
    (ExternalEntity.set st key val).state = st ∧
    (ExternalEntity.set st key val).published = [] ∧
    (ExternalEntity.del st key).result = .error "not found" ∧
    (ExternalEntity.del st key).state = st ∧
    (ExternalEntity.del st key).published = [] ∧
    (∀ k v, lookupAL (ExternalEntity.set st k v).state.kvstore key = none) ∧
    (∀ k, lookupAL (ExternalEntity.del st k).state.kvstore key = none) ∧
    (∀ v, lookupAL (ExternalEntity.set_private st key v).1.kvstore key
        = some ⟨some v, AccessTag.Public⟩) ∧
    (∀ acl, lookupAL (ExternalEntity.set_acl st key acl).kvstore key
        = some ⟨none, acl⟩) := by
  refine ⟨by simp [ExternalEntity.set, h], by simp [ExternalEntity.set, h],
    by simp [ExternalEntity.set, h], by simp [ExternalEntity.del, h],
    by simp [ExternalEntity.del, h], by simp [ExternalEntity.del, h],
    ?_, ?_, ?_, ?_⟩
  · intro k v
    unfold ExternalEntity.set
    cases hlk : lookupAL st.kvstore k with
    | none => simpa using h
    | some va =>
      have hne : ¬ key = k := by
        intro he
        rw [he, hlk] at h
        cases h
      obtain ⟨vv, acc⟩ := va
      cases acc <;> simp [lookupAL_insertAL, hne, h]
  · intro k
    unfold ExternalEntity.del
    cases hlk : lookupAL st.kvstore k with
    | none => simpa using h
    | some va =>
      have hne : ¬ key = k := by
        intro he
        rw [he, hlk] at h
        cases h
      obtain ⟨vv, acc⟩ := va
      cases acc <;> simp [lookupAL_insertAL, hne, h]
  · intro v
    simp [ExternalEntity.set_private, lookupAL_insertAL]
  · intro acl
    simp [ExternalEntity.set_acl, h, lookupAL_insertAL]

/-- Witness for C9 at the empty kvstore and key `[120]`. -/
theorem missing_key_never_created_witness :
    (ExternalEntity.set ⟨none, []⟩ [120] [1]).result = .error "not found" ∧
    (ExternalEntity.del ⟨none, []⟩ [120]).result = .error "not found" ∧
    lookupAL (ExternalEntity.set_acl ⟨none, []⟩ [120]
        AccessTag.Protected).kvstore [120]
      = some ⟨none, AccessTag.Protected⟩ :=
  ⟨(missing_key_never_created ⟨none, []⟩ [120] [1] (by decide)).1,
   (missing_key_never_created ⟨none, []⟩ [120] [1] (by decide)).2.2.2.1,
   (missing_key_never_created ⟨none, []⟩ [120] [1]
      (by decide)).2.2.2.2.2.2.2.2.2 AccessTag.Protected⟩

/-- Claim C8: a permitted remote `del` on a Public-tagged key clears only the
stored value — the key keeps its row and tag (still listed by `keys`,
`get_private` now `none`) — whereas `del_private` removes the row entirely;
both publish a `none` deletion when the entity has a name, and neither
touches any other row. -/
theorem del_vs_del_private_frame (st : EntityState) (key : List Nat)
    (v : Option (List Nat))
    (h : lookupAL st.kvstore key = some ⟨v, AccessTag.Public⟩) :
    (ExternalEntity.del st key).result = .ok () ∧
    lookupAL (ExternalEntity.del st key).state.kvstore key
      = some ⟨none, AccessTag.Public⟩ ∧
    (key, AccessTag.Public) ∈
      ExternalEntity.keys (ExternalEntity.del st key).state ∧
    ExternalEntity.get_private (ExternalEntity.del st key).state key = none ∧
    (∀ k, k ≠ key → lookupAL (ExternalEntity.del st key).state.kvstore k
        = lookupAL st.kvstore k) ∧
    (ExternalEntity.del st key).published
      = (match st.name with | some n => [(⟨n, key⟩, none)] | none => []) ∧
    lookupAL (ExternalEntity.del_private st key).1.kvstore key = none ∧
    (∀ t, (key, t) ∉
        ExternalEntity.keys (ExternalEntity.del_private st key).1) ∧
    (∀ k, k ≠ key → lookupAL (ExternalEntity.del_private st key).1.kvstore k
        = lookupAL st.kvstore k) ∧
    (ExternalEntity.del_private st key).2
      = (match st.name with | some n => [(⟨n, key⟩, none)] | none => []) := by
  refine ⟨?_, ?_, ?_, ?_, ?_, ?_, ?_, ?_, ?_, ?_⟩
  · simp [ExternalEntity.del, h]
  · simp [ExternalEntity.del, h, lookupAL_insertAL]
  · have hm : (key, (⟨none, AccessTag.Public⟩ : ValueWithAccess)) ∈
        (ExternalEntity.del st key).state.kvstore :=
      lookupAL_mem _ _ _ (by simp [ExternalEntity.del, h, lookupAL_insertAL])
    exact List.mem_map.mpr ⟨(key, ⟨none, AccessTag.Public⟩), hm, rfl⟩
  · simp [ExternalEntity.get_private, ExternalEntity.del, h, lookupAL_insertAL]
  · intro k hk
    simp [ExternalEntity.del, h, lookupAL_insertAL, hk]
  · simp [ExternalEntity.del, h]
  · simp [ExternalEntity.del_private, lookupAL_eraseAL]
  · intro t ht
    rcases List.mem_map.mp ht with ⟨p, hp, he⟩
    have : p.1 ≠ key := mem_eraseAL_fst_ne _ _ _ (by simpa [ExternalEntity.del_private] using hp)
    exact this (congrArg Prod.fst he)
  · intro k hk
    simp [ExternalEntity.del_private, lookupAL_eraseAL, hk]
  · simp [ExternalEntity.del_private]

/-- Witness for C8 on a kvstore with the Public key `[120]` (value `[5]`)
and an untouched Private key `[121]`, owned by an entity named `[97]`. -/
theorem del_vs_del_private_frame_witness :
    (ExternalEntity.del ⟨some [97], [([120], ⟨some [5], AccessTag.Public⟩),
        ([121], ⟨some [6], AccessTag.Private⟩)]⟩ [120]).result = .ok () ∧
    lookupAL (ExternalEntity.del ⟨some [97],
        [([120], ⟨some [5], AccessTag.Public⟩),
         ([121], ⟨some [6], AccessTag.Private⟩)]⟩ [120]).state.kvstore [120]
      = some ⟨none, AccessTag.Public⟩ ∧
    lookupAL (ExternalEntity.del_private ⟨some [97],
        [([120], ⟨some [5], AccessTag.Public⟩),
         ([121], ⟨some [6], AccessTag.Private⟩)]⟩ [120]).1.kvstore [120]
      = none ∧
    lookupAL (ExternalEntity.del ⟨some [97],
        [([120], ⟨some [5], AccessTag.Public⟩),
         ([121], ⟨some [6], AccessTag.Private⟩)]⟩ [120]).state.kvstore [121]
      = some ⟨some [6], AccessTag.Private⟩ :=
  ⟨(del_vs_del_private_frame _ [120] (some [5]) (by decide)).1,
   (del_vs_del_private_frame _ [120] (some [5]) (by decide)).2.1,
   (del_vs_del_private_frame _ [120] (some [5]) (by decide)).2.2.2.2.2.2.1,
   by
    have := (del_vs_del_private_frame ⟨some [97],
        [([120], ⟨some [5], AccessTag.Public⟩),
         ([121], ⟨some [6], AccessTag.Private⟩)]⟩ [120] (some [5])
        (by decide)).2.2.2.2.1 [121] (by decide)
    rw [this]
    decide⟩

/-- Claim C7: `SharedStorage::del` publishes `EventKey("shared", key)` with
payload `none` and removes the key from the shared map, but never returns
success — the `todo!()` after the mutation is reached on every
invocation. -/
theorem shared_del_never_returns (st : SharedState) (key : List Nat) :
    (SharedStorage.del st key).published = [(⟨sharedName, key⟩, none)] ∧
    (SharedStorage.del st key).state.data = eraseAL st.data key ∧
    lookupAL (SharedStorage.del st key).state.data key = none ∧
    (SharedStorage.del st key).outcome ≠ DelOutcome.normal := by
  refine ⟨rfl, rfl, ?_, by simp [SharedStorage.del]⟩
  simp [SharedStorage.del, lookupAL_eraseAL]

/-- Claim C2: when A invokes `call` on B with requester id `R`, key `K` and
payload `P`, B's connection receives a `CALL` frame whose reqid is the fresh
responder id `rid` and whose payload is `SuccessWithData(short_text(K) · P)`,
and A's `pending_call` gains `rid → R`; when B then triggers
`recv_call_resp(rid, SuccessWithData Q)` (the `RESPONSE` command), A's
connection receives a `RESP` frame with reqid `R` and payload
`SuccessWithData Q`, and the `rid` entries are gone from both tables. -/
theorem call_response_routing (w : CallWorld) (R : Nat) (K P Q : List Nat)
    (rid : Nat) (hfresh : lookupAL w.brecord rid = none) :
    (ExternalEntity.call w R K P rid).bout
      = w.bout ++ [Response.new_call rid
          (ResponsePayload.SuccessWithData (encode_short_text K ++ P))] ∧
    lookupAL (ExternalEntity.call w R K P rid).apending rid = some R ∧
    (ExternalEntity.recv_call_resp (ExternalEntity.call w R K P rid) rid
        (ResponsePayload.SuccessWithData Q)).aout
      = (ExternalEntity.call w R K P rid).aout
        ++ [Response.new_resp R (ResponsePayload.SuccessWithData Q)] ∧
    lookupAL (ExternalEntity.recv_call_resp (ExternalEntity.call w R K P rid)
        rid (ResponsePayload.SuccessWithData Q)).apending rid = none ∧
    lookupAL (ExternalEntity.recv_call_resp (ExternalEntity.call w R K P rid)
        rid (ResponsePayload.SuccessWithData Q)).brecord rid = none := by
  refine ⟨rfl, by simp [ExternalEntity.call, ExternalEntity.assign_call_ids,
    lookupAL_insertAL], ?_, ?_, ?_⟩ <;>
    simp [ExternalEntity.call, ExternalEntity.assign_call_ids,
      ExternalEntity.recv_call_resp, ExternalEntity.call_resp,
      lookupAL_insertAL, lookupAL_eraseAL]

/-- Witness for C2: a fresh world, requester id 5, key `[109]`, payload
`[112]`, responder id 3 and reply `[79, 75]`. -/
theorem call_response_routing_witness :
    (ExternalEntity.call ⟨[], [], [], []⟩ 5 [109] [112] 3).bout
      = [Response.new_call 3
          (ResponsePayload.SuccessWithData (encode_short_text [109] ++ [112]))] ∧
    lookupAL (ExternalEntity.call ⟨[], [], [], []⟩ 5 [109] [112] 3).apending 3
      = some 5 ∧
    (ExternalEntity.recv_call_resp
        (ExternalEntity.call ⟨[], [], [], []⟩ 5 [109] [112] 3) 3
        (ResponsePayload.SuccessWithData [79, 75])).aout
      = [Response.new_resp 5 (ResponsePayload.SuccessWithData [79, 75])] ∧
    lookupAL (ExternalEntity.recv_call_resp
        (ExternalEntity.call ⟨[], [], [], []⟩ 5 [109] [112] 3) 3
        (ResponsePayload.SuccessWithData [79, 75])).apending 3 = none ∧
    lookupAL (ExternalEntity.recv_call_resp
        (ExternalEntity.call ⟨[], [], [], []⟩ 5 [109] [112] 3) 3
        (ResponsePayload.SuccessWithData [79, 75])).brecord 3 = none := by
  exact call_response_routing ⟨[], [], [], []⟩ 5 [109] [112] [79, 75] 3
    (by decide)

theorem call_resp_brecord (w : CallWorld) (rid : Nat) (p : ResponsePayload) :
    (ExternalEntity.call_resp w rid p).brecord = w.brecord := by
  unfold ExternalEntity.call_resp
  cases lookupAL w.apending rid <;> rfl

/-- Claim C10: `call_resp` removes the `pending_call` entry it answers and
`recv_call_resp` removes the `call_record` entry it forwards, so processing a
second `RESPONSE` or `EXCEPTION` frame with the same responder id is a
complete no-op — no outbound frame, no state change; at most one `RESP`
frame reaches the requester per call. -/
theorem at_most_once_response (w : CallWorld) (rid : Nat)
    (p p' : ResponsePayload) :
    ExternalEntity.recv_call_resp
        (ExternalEntity.recv_call_resp w rid p) rid p'
      = ExternalEntity.recv_call_resp w rid p ∧
    lookupAL (ExternalEntity.recv_call_resp w rid p).brecord rid = none ∧
    lookupAL (ExternalEntity.call_resp w rid p).apending rid = none := by
  have hbr : lookupAL (ExternalEntity.recv_call_resp w rid p).brecord rid
      = none := by
    unfold ExternalEntity.recv_call_resp
    cases hl : lookupAL w.brecord rid with
    | none => simpa using hl
    | some alive =>
      cases alive
      · simp [lookupAL_eraseAL]
      · simp [call_resp_brecord, lookupAL_eraseAL]
  refine ⟨?_, hbr, ?_⟩
  · generalize hw1 : ExternalEntity.recv_call_resp w rid p = w1 at hbr ⊢
    unfold ExternalEntity.recv_call_resp
    rw [hbr]
  · unfold ExternalEntity.call_resp
    cases hap : lookupAL w.apending rid with
    | none => simpa using hap
    | some reqid => simp [lookupAL_eraseAL]

/-- Claim C3: `Registry::set` fails with `"duplicated"` when the name is
already bound (checked first), fails with `"too many names"` when the sender
already has a reverse entry; on success it installs both entries, calls
`sender.update_name(Some(name))` and publishes `EventKey("registry", name)`
with the supplied value; on either failure the state is unchanged and
nothing is published. -/
theorem registry_set_spec (st : RegState) (sender : EntityId)
    (key val : List Nat) :
    ((lookupAL st.forward key).isSome →
        (Registry.set st sender key val).result = .error "duplicated" ∧
        (Registry.set st sender key val).state = st ∧
        (Registry.set st sender key val).published = [] ∧
        (Registry.set st sender key val).nameUpdates = []) ∧
    (lookupAL st.forward key = none → (lookupAL st.reverse sender).isSome →
        (Registry.set st sender key val).result = .error "too many names" ∧
        (Registry.set st sender key val).state = st ∧
        (Registry.set st sender key val).published = [] ∧
        (Registry.set st sender key val).nameUpdates = []) ∧
    (lookupAL st.forward key = none → lookupAL st.reverse sender = none →
        (Registry.set st sender key val).result = .ok () ∧
        (Registry.set st sender key val).state.forward
          = insertAL st.forward key sender ∧
        (Registry.set st sender key val).state.reverse
          = insertAL st.reverse sender key ∧
        (Registry.set st sender key val).nameUpdates
          = [(sender, some key)] ∧
        (Registry.set st sender key val).published
          = [(⟨registryName, key⟩, some val)]) := by
  refine ⟨fun h => ?_, fun h1 h2 => ?_, fun h1 h2 => ?_⟩
  · simp [Registry.set, h]
  · simp [Registry.set, h1, h2]
  · simp [Registry.set, h1, h2]

/-- Witness for C3: the success branch on the freshly initialized registry
with sender 5 and name `"alice"`. -/
theorem registry_set_spec_witness :
    (Registry.set Registry.init 5 [97, 108, 105, 99, 101] [1]).result
      = .ok () ∧
    (Registry.set Registry.init 5 [97, 108, 105, 99, 101] [1]).published
      = [(⟨registryName, [97, 108, 105, 99, 101]⟩, some [1])] ∧
    (Registry.set Registry.init 5 [97, 108, 105, 99, 101] [1]).nameUpdates
      = [(5, some [97, 108, 105, 99, 101])] := by
  have h := (registry_set_spec Registry.init 5 [97, 108, 105, 99, 101]
    [1]).2.2 (by decide) (by decide)
  exact ⟨h.1, h.2.2.2.2, h.2.2.2.1⟩

/-- Claim C4 (amended — the wrong-owner error is the source's misspelled
`"not allowned"`, not `"not allowed"`): `Registry::del` succeeds only when
the forward map binds the name to an entity pointer-identical to the sender,
publishing `EventKey("registry", name)` with `none` and removing both
entries; a name bound to a different entity fails with `"not allowned"`
(sic) and an unbound name fails with `"not found"`, in both cases with the
maps unchanged and nothing published. -/
theorem registry_del_spec (st : RegState) (sender : EntityId)
    (key : List Nat) :
    (lookupAL st.forward key = some sender →
        (Registry.del st sender key).result = .ok () ∧
        (Registry.del st sender key).published
          = [(⟨registryName, key⟩, none)] ∧
        (Registry.del st sender key).state.forward = eraseAL st.forward key ∧
        (Registry.del st sender key).state.reverse
          = eraseAL st.reverse sender) ∧
    (∀ target, lookupAL st.forward key = some target → target ≠ sender →
        (Registry.del st sender key).result = .error "not allowned" ∧
        (Registry.del st sender key).state = st ∧
        (Registry.del st sender key).published = []) ∧
    (lookupAL st.forward key = none →
        (Registry.del st sender key).result = .error "not found" ∧
        (Registry.del st sender key).state = st ∧
        (Registry.del st sender key).published = []) := by
  refine ⟨fun h => ?_, fun target h ht => ?_, fun h => ?_⟩
  · simp [Registry.del, h]
  · simp [Registry.del, h, ht]
  · simp [Registry.del, h]

/-- Witness for C4: after sender 5 registers `"alice"`, its own `del`
succeeds and publishes the deletion. -/
theorem registry_del_spec_witness :
    (Registry.del (Registry.set Registry.init 5
        [97, 108, 105, 99, 101] []).state 5 [97, 108, 105, 99, 101]).result
      = .ok () ∧
    (Registry.del (Registry.set Registry.init 5
        [97, 108, 105, 99, 101] []).state 5 [97, 108, 105, 99, 101]).published
      = [(⟨registryName, [97, 108, 105, 99, 101]⟩, none)] := by
  have h := (registry_del_spec (Registry.set Registry.init 5
    [97, 108, 105, 99, 101] []).state 5 [97, 108, 105, 99, 101]).1 (by decide)
  exact ⟨h.1, h.2.1⟩

/-- Counterexample to C4 as stated: deleting `"registry"` (bound to the
Registry itself) as a different entity fails, but with the source's
misspelled `"not allowned"` rather than `"not allowed"`. -/
theorem registry_del_counterexample :
    (Registry.del Registry.init 5 registryName).result
      ≠ Except.error "not allowed" ∧
    (Registry.del Registry.init 5 registryName).result
      = Except.error "not allowned" := by
  constructor
  · decide
  · decide

/-- Invariant of reachable registry states: both views have distinct keys;
the preinstalled `registryId`/`sharedId` values occur in `forward` exactly
under their preinstalled names; and for every other entity the two views are
inverse to each other. -/
def RegInv (st : RegState) : Prop :=
  keysNodup st.forward ∧ keysNodup st.reverse ∧
  (∀ n, lookupAL st.forward n = some registryId ↔ n = registryName) ∧
  (∀ n, lookupAL st.forward n = some sharedId ↔ n = sharedName) ∧
  (∀ e, e ≠ registryId → e ≠ sharedId →
    ∀ n, lookupAL st.forward n = some e ↔ lookupAL st.reverse e = some n)

theorem RegInv_init : RegInv Registry.init := by
  have hff : Registry.init.forward
      = [(registryName, registryId), (sharedName, sharedId)] := by decide
  refine ⟨by unfold keysNodup; decide, by unfold keysNodup; decide, ?_, ?_, ?_⟩
  · intro n
    by_cases h1 : n = registryName
    · subst h1
      decide
    · by_cases h2 : n = sharedName
      · subst h2
        decide
      · have e1 : ¬ registryName = n := fun h => h1 h.symm
        have e2 : ¬ sharedName = n := fun h => h2 h.symm
        rw [hff]
        simp [lookupAL, e1, e2, h1]
  · intro n
    by_cases h1 : n = registryName
    · subst h1
      decide
    · by_cases h2 : n = sharedName
      · subst h2
        decide
      · have e1 : ¬ registryName = n := fun h => h1 h.symm
        have e2 : ¬ sharedName = n := fun h => h2 h.symm
        rw [hff]
        simp [lookupAL, e1, e2, h2]
  · intro e he0 he1 n
    have hrev : lookupAL Registry.init.reverse e = none := rfl
    rw [hrev, hff]
    constructor
    · intro hc
      exfalso
      by_cases h1 : registryName = n
      · simp [lookupAL, h1] at hc
        exact he0 hc.symm
      · by_cases h2 : sharedName = n
        · simp [lookupAL, h1, h2] at hc
          exact he1 hc.symm
        · simp [lookupAL, h1, h2] at hc
    · intro hc
      exact Option.noConfusion hc

theorem insert_preserves_pre_lookup (fwd : List (List Nat × EntityId))
    (key : List Nat) (sender pre : EntityId) (preName : List Nat)
    (hpre : ∀ n, lookupAL fwd n = some pre ↔ n = preName)
    (hsp : sender ≠ pre) (hl : lookupAL fwd key = none) :
    ∀ n, lookupAL (insertAL fwd key sender) n = some pre ↔ n = preName := by
  intro n
  rw [lookupAL_insertAL]
  by_cases hn : n = key
  · rw [if_pos hn]
    constructor
    · intro hc
      exact absurd (Option.some.inj hc) hsp
    · intro hc
      exfalso
      have hk : key = preName := by rw [← hn, hc]
      have hx := (hpre preName).mpr rfl
      rw [← hk, hl] at hx
      simp at hx
  · rw [if_neg hn]
    exact hpre n

theorem erase_preserves_pre_lookup (fwd : List (List Nat × EntityId))
    (key : List Nat) (sender pre : EntityId) (preName : List Nat)
    (hpre : ∀ n, lookupAL fwd n = some pre ↔ n = preName)
    (hsp : sender ≠ pre) (hl : lookupAL fwd key = some sender) :
    ∀ n, lookupAL (eraseAL fwd key) n = some pre ↔ n = preName := by
  intro n
  rw [lookupAL_eraseAL]
  by_cases hn : n = key
  · rw [if_pos hn]
    constructor
    · intro hc
      exact Option.noConfusion hc
    · intro hc
      exfalso
      have hk : key = preName := by rw [← hn, hc]
      have hx := (hpre key).mpr hk
      rw [hl] at hx
      exact hsp (Option.some.inj hx)
  · rw [if_neg hn]
    exact hpre n

theorem set_preserves_bidi (st : RegState) (sender : EntityId)
    (key : List Nat)
    (hbi : ∀ e, e ≠ registryId → e ≠ sharedId →
        ∀ n, lookupAL st.forward n = some e ↔ lookupAL st.reverse e = some n)
    (hl : lookupAL st.forward key = none)
    (hv : lookupAL st.reverse sender = none) :
    ∀ e, e ≠ registryId → e ≠ sharedId →
      ∀ n, lookupAL (insertAL st.forward key sender) n = some e
        ↔ lookupAL (insertAL st.reverse sender key) e = some n := by
  intro e he0 he1 n
  rw [lookupAL_insertAL, lookupAL_insertAL]
  by_cases hes : e = sender
  · by_cases hn : n = key
    · rw [if_pos hn, if_pos hes, hes, hn]
      simp
    · rw [if_neg hn, if_pos hes]
      constructor
      · intro hc
        exfalso
        have hx := (hbi e he0 he1 n).mp hc
        rw [hes, hv] at hx
        exact Option.noConfusion hx
      · intro hc
        exact absurd (Option.some.inj hc).symm hn
  · by_cases hn : n = key
    · rw [if_pos hn, if_neg hes]
      constructor
      · intro hc
        exact absurd (Option.some.inj hc).symm hes
      · intro hc
        exfalso
        have hck : lookupAL st.reverse e = some key := by
          rw [← hn]
          exact hc
        have hx := (hbi e he0 he1 key).mpr hck
        rw [hl] at hx
        exact Option.noConfusion hx
    · rw [if_neg hn, if_neg hes]
      exact hbi e he0 he1 n

theorem del_preserves_bidi (st : RegState) (sender : EntityId)
    (key : List Nat)
    (hbi : ∀ e, e ≠ registryId → e ≠ sharedId →
        ∀ n, lookupAL st.forward n = some e ↔ lookupAL st.reverse e = some n)
    (hsr : sender ≠ registryId) (hss : sender ≠ sharedId)
    (hl : lookupAL st.forward key = some sender) :
    ∀ e, e ≠ registryId → e ≠ sharedId →
      ∀ n, lookupAL (eraseAL st.forward key) n = some e
        ↔ lookupAL (eraseAL st.reverse sender) e = some n := by
  intro e he0 he1 n
  rw [lookupAL_eraseAL, lookupAL_eraseAL]
  have hrevs : lookupAL st.reverse sender = some key :=
    (hbi sender hsr hss key).mp hl
  by_cases hes : e = sender
  · by_cases hn : n = key
    · rw [if_pos hn, if_pos hes]
      exact ⟨fun hc => Option.noConfusion hc, fun hc => Option.noConfusion hc⟩
    · rw [if_neg hn, if_pos hes]
      constructor
      · intro hc
        exfalso
        have hx := (hbi e he0 he1 n).mp hc
        rw [hes, hrevs] at hx
        exact hn (Option.some.inj hx).symm
      · intro hc
        exact absurd hc (fun h => Option.noConfusion h)
  · by_cases hn : n = key
    · rw [if_pos hn, if_neg hes]
      constructor
      · intro hc
        exact Option.noConfusion hc
      · intro hc
        exfalso
        have hck : lookupAL st.reverse e = some key := by
          rw [← hn]
          exact hc
        have hx := (hbi e he0 he1 key).mpr hck
        rw [hl] at hx
        exact hes (Option.some.inj hx).symm
    · rw [if_neg hn, if_neg hes]
      exact hbi e he0 he1 n

theorem RegInv_set (st : RegState) (sender : EntityId) (key val : List Nat)
    (hinv : RegInv st) (h1 : sender ≠ registryId) (h2 : sender ≠ sharedId) :
    RegInv (Registry.set st sender key val).state := by
  obtain ⟨hf, hr, hreg, hsh, hbi⟩ := hinv
  unfold Registry.set
  cases hl : lookupAL st.forward key with
  | some t =>
    simp only [Option.isSome_some, if_true]
    exact ⟨hf, hr, hreg, hsh, hbi⟩
  | none =>
    cases hv : lookupAL st.reverse sender with
    | some t2 =>
      simp only [Option.isSome_none, Option.isSome_some, if_true,
        Bool.false_eq_true, if_false]
      exact ⟨hf, hr, hreg, hsh, hbi⟩
    | none =>
      simp only [Option.isSome_none, Bool.false_eq_true, if_false]
      exact ⟨keysNodup_insertAL _ _ _ hf, keysNodup_insertAL _ _ _ hr,
        insert_preserves_pre_lookup st.forward key sender registryId
          registryName hreg h1 hl,
        insert_preserves_pre_lookup st.forward key sender sharedId
          sharedName hsh h2 hl,
        set_preserves_bidi st sender key hbi hl hv⟩

theorem Registry.del_state_of_owner (st : RegState) (sender : EntityId)
    (key : List Nat) (hl : lookupAL st.forward key = some sender) :
    (Registry.del st sender key).state
      = ⟨eraseAL st.forward key, eraseAL st.reverse sender⟩ := by
  simp [Registry.del, hl]

theorem Registry.del_state_of_other (st : RegState) (sender target : EntityId)
    (key : List Nat) (hl : lookupAL st.forward key = some target)
    (ht : target ≠ sender) :
    (Registry.del st sender key).state = st := by
  simp [Registry.del, hl, ht]

theorem Registry.del_state_of_missing (st : RegState) (sender : EntityId)
    (key : List Nat) (hl : lookupAL st.forward key = none) :
    (Registry.del st sender key).state = st := by
  simp [Registry.del, hl]

theorem RegInv_del (st : RegState) (sender : EntityId) (key : List Nat)
    (hinv : RegInv st) (h1 : sender ≠ registryId) (h2 : sender ≠ sharedId) :
    RegInv (Registry.del st sender key).state := by
  obtain ⟨hf, hr, hreg, hsh, hbi⟩ := hinv
  cases hl : lookupAL st.forward key with
  | none =>
    rw [Registry.del_state_of_missing st sender key hl]
    exact ⟨hf, hr, hreg, hsh, hbi⟩
  | some target =>
    by_cases ht : target = sender
    · subst ht
      rw [Registry.del_state_of_owner st target key hl]
      exact ⟨keysNodup_eraseAL _ _ hf, keysNodup_eraseAL _ _ hr,
        erase_preserves_pre_lookup st.forward key target registryId
          registryName hreg h1 hl,
        erase_preserves_pre_lookup st.forward key target sharedId
          sharedName hsh h2 hl,
        del_preserves_bidi st target key hbi h1 h2 hl⟩
    · rw [Registry.del_state_of_other st sender target key hl ht]
      exact ⟨hf, hr, hreg, hsh, hbi⟩

theorem RegInv_reachable (st : RegState) (h : RegReachable st) : RegInv st := by
  induction h with
  | init => exact RegInv_init
  | set st sender key val _ h1 h2 ih => exact RegInv_set st sender key val ih h1 h2
  | del st sender key _ h1 h2 ih => exact RegInv_del st sender key ih h1 h2

/-- Claim C5 (amended — the initialized registry also preinstalls the
startup-manifest `"shared"` → SharedStorage binding with no reverse entry,
so the forward/reverse correspondence excludes both preinstalled bindings,
not only the self-referential `"registry"` one): in every state reachable by
`set`/`del` from the initialized registry, every entity is the value of at
most one forward entry, and every entity other than the preinstalled
Registry and SharedStorage singletons appears in a forward entry under a
name iff it has the matching reverse entry (which is then unique, the
reverse view being a map keyed by entity identity). -/
theorem registry_uniqueness (st : RegState) (h : RegReachable st) :
    (∀ (e : EntityId) (n1 n2 : List Nat),
        (n1, e) ∈ st.forward → (n2, e) ∈ st.forward → n1 = n2) ∧
    (∀ e, e ≠ registryId → e ≠ sharedId →
        ∀ n, ((n, e) ∈ st.forward ↔ (e, n) ∈ st.reverse)) := by
  obtain ⟨hf, hr, hreg, hsh, hbi⟩ := RegInv_reachable st h
  constructor
  · intro e n1 n2 hm1 hm2
    have l1 := mem_lookupAL_of_nodup _ _ _ hf hm1
    have l2 := mem_lookupAL_of_nodup _ _ _ hf hm2
    by_cases he0 : e = registryId
    · rw [he0] at l1 l2
      rw [(hreg n1).mp l1, (hreg n2).mp l2]
    · by_cases he1 : e = sharedId
      · rw [he1] at l1 l2
        rw [(hsh n1).mp l1, (hsh n2).mp l2]
      · have r1 := (hbi e he0 he1 n1).mp l1
        have r2 := (hbi e he0 he1 n2).mp l2
        rw [r1] at r2
        exact Option.some.inj r2
  · intro e he0 he1 n
    constructor
    · intro hm
      exact lookupAL_mem _ _ _
        ((hbi e he0 he1 n).mp (mem_lookupAL_of_nodup _ _ _ hf hm))
    · intro hm
      exact lookupAL_mem _ _ _
        ((hbi e he0 he1 n).mpr (mem_lookupAL_of_nodup _ _ _ hr hm))

/-- Counterexample to C5 as stated: the initialized registry (reachable by
the empty sequence of operations) binds `"shared"` to the SharedStorage
entity — a forward entry whose entity is not the self-referential
`"registry"` binding — yet the reverse view is empty, so that entity has no
corresponding reverse entry at all. -/
theorem registry_uniqueness_counterexample :
    RegReachable Registry.init ∧
    sharedId ≠ registryId ∧
    (sharedName, sharedId) ∈ Registry.init.forward ∧
    Registry.init.reverse = [] :=
  ⟨RegReachable.init, by decide, by decide, rfl⟩

/-- Witness for C5: after entity 5 registers `"alice"` from the initialized
registry, its forward and reverse entries correspond. -/
theorem registry_uniqueness_witness :
    ([97, 108, 105, 99, 101], 5) ∈
        (Registry.set Registry.init 5 [97, 108, 105, 99, 101] []).state.forward
      ↔ (5, [97, 108, 105, 99, 101]) ∈
        (Registry.set Registry.init 5 [97, 108, 105, 99, 101] []).state.reverse :=
  (registry_uniqueness _
      (RegReachable.set Registry.init 5 [97, 108, 105, 99, 101] []
        RegReachable.init (by decide) (by decide))).2
    5 (by decide) (by decide) [97, 108, 105, 99, 101]

/-- Witness for C7 at a singleton shared map and key `[107]`. -/
theorem shared_del_never_returns_witness :
    (SharedStorage.del ⟨[([107], [1])]⟩ [107]).published
      = [(⟨sharedName, [107]⟩, none)] ∧
    lookupAL (SharedStorage.del ⟨[([107], [1])]⟩ [107]).state.data [107]
      = none ∧
    (SharedStorage.del ⟨[([107], [1])]⟩ [107]).outcome ≠ DelOutcome.normal :=
  ⟨(shared_del_never_returns ⟨[([107], [1])]⟩ [107]).1,
   (shared_del_never_returns ⟨[([107], [1])]⟩ [107]).2.2.1,
   (shared_del_never_returns ⟨[([107], [1])]⟩ [107]).2.2.2⟩
